import Mathlib

/-!
Verification of the real-time audio-capture-and-streaming-transcription client
(`src/frontend/src/App.js` and `src/unnamed/part_000`) against its design
specification.  The source holds several variants of the `App` component: a
non-streaming one, a streaming one whose transcript aggregator appends with a
space separator (`App.js` lines 227-505), a `Waveform` playback component
(`App.js` lines 506-564), and in `src/unnamed/part_000` a streaming variant
whose aggregator replaces the transcript with each message.  Audio samples are
modelled as rationals, JavaScript strings as `String`, and the JavaScript
`Int16Array` store conversion (ToInt16) as explicit truncation toward zero
followed by reduction modulo 2^16.
-/

namespace RTT

/-- Truncation of a rational toward zero, as the JavaScript ToInt16 abstract
operation truncates a number before reducing it modulo 2^16. -/
def truncQ (q : ℚ) : ℤ := if 0 ≤ q then ⌊q⌋ else ⌈q⌉

/-- Reduction of an integer to a signed 16-bit value, as performed when a
JavaScript number is stored into an `Int16Array`: reduce modulo 2^16, then
values of the residue at or above 2^15 represent negatives. -/
def toInt16 (n : ℤ) : ℤ :=
  let m := n % 65536
  if m < 32768 then m else m - 65536

/-- Embedding of `convertFloat32ToInt16` (src/frontend/src/App.js lines
344-351, identical in src/unnamed/part_000 lines 119-126): for each sample,
`buf[i] = Math.min(1, buffer[i]) * 0x7FFF` stored into an `Int16Array`, so the
sample is clamped above by 1, scaled by 32767, truncated toward zero and
reduced to 16 bits. -/
def convertFloat32ToInt16 (buffer : List ℚ) : List ℤ :=
  buffer.map (fun s => toInt16 (truncQ (min 1 s * 32767)))

/-- The claimed reading of the encoder, stated from the spec's words for
comparison with `convertFloat32ToInt16`: round `min(1, input[i]) * 32767` to
the nearest integer (JavaScript `Math.round`, halves toward positive
infinity). -/
def encodeRoundSpec (buffer : List ℚ) : List ℤ :=
  buffer.map (fun s => ⌊min 1 s * 32767 + 1 / 2⌋)

theorem truncQ_le_of_le (q : ℚ) (b : ℤ) (h : q ≤ (b : ℚ)) : truncQ q ≤ b := by
  unfold truncQ
  split
  · have h1 : (⌊q⌋ : ℚ) ≤ (b : ℚ) := le_trans (Int.floor_le q) h
    exact_mod_cast h1
  · exact Int.ceil_le.mpr h

theorem le_truncQ_of_le (q : ℚ) (b : ℤ) (h : (b : ℚ) ≤ q) : b ≤ truncQ q := by
  unfold truncQ
  split
  · exact Int.le_floor.mpr h
  · have h1 : (b : ℚ) ≤ (⌈q⌉ : ℚ) := le_trans h (Int.le_ceil q)
    exact_mod_cast h1

theorem toInt16_eq_self {n : ℤ} (h1 : -32768 ≤ n) (h2 : n < 32768) :
    toInt16 n = n := by
  simp only [toInt16]
  omega

theorem convertFloat32ToInt16_neg_two_thirds :
    convertFloat32ToInt16 [-(2 / 3)] = [-21844] := by
  have h1 : min (1 : ℚ) (-(2 / 3)) = -(2 / 3) := min_eq_right (by norm_num)
  have h2 : (⌈-((65534 : ℚ) / 3)⌉ : ℤ) = -21844 := by
    rw [Int.ceil_eq_iff]
    norm_num
  simp only [convertFloat32ToInt16, List.map, h1, truncQ, toInt16]
  norm_num [h2]

/-- C1, counterexample: at the input sample 2/3 the encoder truncates
`min(1, s) * 32767 = 21844.66…` toward zero (an `Int16Array` store performs
ToInt16, which truncates), producing 21844, while the claimed
round-to-nearest produces 21845.  Shown at the sample -2/3, where truncation
gives -21844 but rounding gives -21845. -/
theorem C1_encoder_rounds_counterexample :
    convertFloat32ToInt16 [-(2 / 3)] = [-21844] ∧
    encodeRoundSpec [-(2 / 3)] = [-21845] ∧
    convertFloat32ToInt16 [-(2 / 3)] ≠ encodeRoundSpec [-(2 / 3)] := by
  have hc := convertFloat32ToInt16_neg_two_thirds
  have h1 : min (1 : ℚ) (-(2 / 3)) = -(2 / 3) := min_eq_right (by norm_num)
  have h2 : (⌊-((65534 : ℚ) / 3) + 1 / 2⌋ : ℤ) = -21845 := by
    rw [Int.floor_eq_iff]
    norm_num
  have hr : encodeRoundSpec [-(2 / 3)] = [-21845] := by
    simp only [encodeRoundSpec, List.map, h1]
    norm_num [show -((2 : ℚ) / 3) * 32767 = -((65534 : ℚ) / 3) by ring, h2]
  refine ⟨hc, hr, ?_⟩
  rw [hc, hr]
  decide

/-- C1 (amended): the encoder preserves the length of the input block, and
each output sample is the 16-bit reduction of `min(1, input[i]) * 32767`
truncated toward zero (not rounded to nearest).  The clamp is applied only at
the upper bound 1.0: a sample at or above 1 encodes to 32767, and for samples
at or above -1 the scaled truncation lies within [-32767, 32767], so the
16-bit reduction is the identity and no wrap-around occurs. -/
theorem C1_encoder_truncates (buffer : List ℚ) (i : ℕ) (s : ℚ)
    (h : buffer[i]? = some s) :
    (convertFloat32ToInt16 buffer).length = buffer.length ∧
    (convertFloat32ToInt16 buffer)[i]? =
      some (toInt16 (truncQ (min 1 s * 32767))) ∧
    (1 ≤ s → (convertFloat32ToInt16 buffer)[i]? = some 32767) ∧
    (-1 ≤ s →
      (convertFloat32ToInt16 buffer)[i]? = some (truncQ (min 1 s * 32767)) ∧
      -32767 ≤ truncQ (min 1 s * 32767) ∧ truncQ (min 1 s * 32767) ≤ 32767) := by
  have hlen : (convertFloat32ToInt16 buffer).length = buffer.length :=
    List.length_map _ _
  have helem : (convertFloat32ToInt16 buffer)[i]? =
      some (toInt16 (truncQ (min 1 s * 32767))) := by
    simp [convertFloat32ToInt16, List.getElem?_map, h]
  refine ⟨hlen, helem, ?_, ?_⟩
  · intro hs
    have hmin : min (1 : ℚ) s = 1 := min_eq_left hs
    have htr : truncQ ((1 : ℚ) * 32767) = 32767 := by
      simp only [truncQ, one_mul]
      norm_num
    rw [helem, hmin, htr]
    norm_num [toInt16]
  · intro hs
    have hm1 : (-1 : ℚ) ≤ min 1 s := le_min (by norm_num) hs
    have hm2 : min (1 : ℚ) s ≤ 1 := min_le_left _ _
    have hb1 : ((-32767 : ℤ) : ℚ) ≤ min 1 s * 32767 := by
      push_cast
      nlinarith
    have hb2 : min 1 s * 32767 ≤ ((32767 : ℤ) : ℚ) := by
      push_cast
      nlinarith
    have tq1 : (-32767 : ℤ) ≤ truncQ (min 1 s * 32767) :=
      le_truncQ_of_le _ _ hb1
    have tq2 : truncQ (min 1 s * 32767) ≤ 32767 :=
      truncQ_le_of_le _ _ hb2
    have hid : toInt16 (truncQ (min 1 s * 32767)) = truncQ (min 1 s * 32767) :=
      toInt16_eq_self (by omega) (by omega)
    exact ⟨by rw [helem, hid], tq1, tq2⟩

/-- Witness for `C1_encoder_truncates` at the one-sample block `[2]`: the
sample 2 is at least 1, so it is clamped and encoded to 32767. -/
theorem C1_encoder_truncates_witness :
    (convertFloat32ToInt16 [(2 : ℚ)]).length = [(2 : ℚ)].length ∧
    (convertFloat32ToInt16 [(2 : ℚ)])[0]? = some 32767 :=
  ⟨(C1_encoder_truncates [(2 : ℚ)] 0 2 rfl).1,
   (C1_encoder_truncates [(2 : ℚ)] 0 2 rfl).2.2.1 (by decide)⟩

/-- C10: the encoder does not saturate inputs below -1.  At the sample -3/2,
`min(1, -3/2) * 32767 = -49150.5` truncates to -49150, which is out of the
signed 16-bit range; the `Int16Array` store reduces it modulo 2^16 to 16386,
a positive value of sign opposite to the input, not -32768. -/
theorem C10_below_neg_one_wraps_positive :
    (-(3 / 2) : ℚ) < -1 ∧
    convertFloat32ToInt16 [-(3 / 2)] = [16386] ∧
    (16386 : ℤ) ≠ -32768 ∧ (0 : ℤ) < 16386 := by
  refine ⟨by norm_num, ?_, by decide, by decide⟩
  have h1 : min (1 : ℚ) (-(3 / 2)) = -(3 / 2) := min_eq_right (by norm_num)
  have h2 : (⌈-((98301 : ℚ) / 2)⌉ : ℤ) = -49150 := by
    rw [Int.ceil_eq_iff]
    norm_num
  simp only [convertFloat32ToInt16, List.map, h1, truncQ, toInt16]
  norm_num [h2]

/-- A parsed inbound server message.  The append-policy variant reads the
`text` field (App.js line 291), the replace-policy variant reads the
`transcript` field (part_000 line 67); both are modelled by the `text`
component.  `none` models an absent (undefined) JSON field; confidences are
modelled as rationals. -/
structure TranscriptMessage where
  text : Option String
  detectedLang : Option String
  confidence : Option ℚ
deriving DecidableEq

/-- WebSocket readyState values: CONNECTING, OPEN, CLOSING, CLOSED. -/
inductive ReadyState
  | connecting
  | opened
  | closing
  | closed
deriving DecidableEq

/-- `MediaRecorder.state` values. -/
inductive RecorderState
  | inactive
  | recording
  | paused
deriving DecidableEq

/-- The mutable state of the streaming capture session, as held in the React
component's refs and state hooks (App.js lines 231-243 / part_000 lines 5-17).
`socket = none` models a null `socketRef.current`; `hasProcessor` and
`hasAudioContext` model the `processor` and `audioContext` properties attached
to the socket object (App.js lines 312-313).  `statusLang` and
`statusConfidence` model the detected-language and confidence values
interpolated into the status line (App.js line 293).  The `…Calls` counters
record how many times each underlying release operation (socket close, track
stop, processor disconnect, context close, recorder stop) has been invoked,
so that a claim can state that a call path performs no resource operation. -/
structure SessionState where
  socket : Option ReadyState
  mediaStream : Bool
  hasProcessor : Bool
  hasAudioContext : Bool
  recorder : Option RecorderState
  recording : Bool
  status : String
  transcribedText : String
  statusLang : Option String
  statusConfidence : Option ℚ
  encodedFrames : List (List ℤ)
  sentFrames : List (List ℤ)
  closeCalls : ℕ
  trackStopCalls : ℕ
  disconnectCalls : ℕ
  ctxCloseCalls : ℕ
  recorderStopCalls : ℕ
deriving DecidableEq

/-- The session right after `startRecording` has wired everything up (stream
acquired, recorder started, processing graph connected, socket created) but
before the socket's open event: the socket is CONNECTING and the recording
flag is still false (App.js lines 258-313). -/
def initSession : SessionState :=
  { socket := some .connecting
    mediaStream := true
    hasProcessor := true
    hasAudioContext := true
    recorder := some .recording
    recording := false
    status := ""
    transcribedText := ""
    statusLang := none
    statusConfidence := none
    encodedFrames := []
    sentFrames := []
    closeCalls := 0
    trackStopCalls := 0
    disconnectCalls := 0
    ctxCloseCalls := 0
    recorderStopCalls := 0 }

/-- A session that was never started (or whose refs were never set): every ref
is null and nothing is recording. -/
def idleSession : SessionState :=
  { socket := none
    mediaStream := false
    hasProcessor := false
    hasAudioContext := false
    recorder := none
    recording := false
    status := ""
    transcribedText := ""
    statusLang := none
    statusConfidence := none
    encodedFrames := []
    sentFrames := []
    closeCalls := 0
    trackStopCalls := 0
    disconnectCalls := 0
    ctxCloseCalls := 0
    recorderStopCalls := 0 }

/-- The socket `onopen` handler of the append-policy variant (App.js lines
284-287): sets the status text and the recording flag.  The browser has moved
the socket's readyState to OPEN when this event fires, which the model folds
into the same step. -/
def onopen (s : SessionState) : SessionState :=
  { s with socket := some .opened
           status := "Streaming to server..."
           recording := true }

/-- The socket `onopen` handler of the replace-policy variant (part_000 lines
60-63); identical to `onopen` except for the status text. -/
def onopenAlt (s : SessionState) : SessionState :=
  { s with socket := some .opened
           status := "Recording and streaming..."
           recording := true }

/-- The socket `onerror` handler (App.js lines 297-299 / part_000 lines
72-74): only sets a status line.  The transport marks the socket CLOSED on a
fatal transport error, which the model folds into the same step. -/
def onerrorEvent (s : SessionState) : SessionState :=
  { s with socket := some .closed
           status := "WebSocket error" }

/-- The message-applying part of the append-policy `onmessage` handler
(App.js lines 289-295), after a successful parse: if `data.text` is truthy
(present and nonempty), append it to the transcript with a single space
separator — or take it alone when the transcript is empty — and write the
message's detected-language and confidence into the status; a message with
absent or empty text changes nothing. -/
def onmessageAppend (s : SessionState) (m : TranscriptMessage) : SessionState :=
  match m.text with
  | some t =>
      if t = "" then s
      else
        { s with
          transcribedText :=
            if s.transcribedText = "" then t else s.transcribedText ++ " " ++ t
          statusLang := m.detectedLang
          statusConfidence := m.confidence }
  | none => s

/-- The message-applying part of the replace-policy `onmessage` handler
(part_000 lines 65-70), after a successful parse: if `data.transcript` is
truthy, it replaces the whole transcript; detected language and confidence are
never touched in this variant. -/
def onmessageReplace (s : SessionState) (m : TranscriptMessage) : SessionState :=
  match m.text with
  | some t => if t = "" then s else { s with transcribedText := t }
  | none => s

/-- An inbound channel payload: either unparseable as JSON or a parsed
message. -/
inductive InboundPayload
  | malformed
  | wellFormed (m : TranscriptMessage)
deriving DecidableEq

/-- The full append-policy `onmessage` handler (App.js lines 289-295): the
first statement is `JSON.parse(event.data)` with no try/catch around it, so an
unparseable payload throws out of the handler (modelled as `Except.error`)
before any state update. -/
def onmessageRawAppend (s : SessionState) (p : InboundPayload) :
    Except Unit SessionState :=
  match p with
  | .malformed => .error ()
  | .wellFormed m => .ok (onmessageAppend s m)

/-- The full replace-policy `onmessage` handler (part_000 lines 65-70), with
the same unguarded `JSON.parse`. -/
def onmessageRawReplace (s : SessionState) (p : InboundPayload) :
    Except Unit SessionState :=
  match p with
  | .malformed => .error ()
  | .wellFormed m => .ok (onmessageReplace s m)

/-- The session state after the append-policy `onmessage` handler has run on a
raw payload: an exception escaping the handler is reported by the browser but
neither closes the socket nor changes the React state, so the state is
unchanged. -/
def stateAfterInbound (s : SessionState) (p : InboundPayload) : SessionState :=
  match onmessageRawAppend s p with
  | .ok s' => s'
  | .error _ => s

/-- The session state after the replace-policy `onmessage` handler has run on
a raw payload. -/
def stateAfterInboundAlt (s : SessionState) (p : InboundPayload) : SessionState :=
  match onmessageRawReplace s p with
  | .ok s' => s'
  | .error _ => s

/-- The `onaudioprocess` callback of the append-policy variant (App.js lines
301-307): every delivered block is encoded unconditionally; the encoded frame
is then sent only when the socket exists and its readyState is OPEN, and is
otherwise dropped without being stored anywhere. -/
def onaudioprocess (s : SessionState) (block : List ℚ) : SessionState :=
  let pcm := convertFloat32ToInt16 block
  let s' := { s with encodedFrames := s.encodedFrames ++ [pcm] }
  if s.socket = some .opened then
    { s' with sentFrames := s'.sentFrames ++ [pcm] }
  else s'

/-- The `onaudioprocess` callback of the replace-policy variant (part_000
lines 76-82): the readyState check (`=== 1`, numeric OPEN) comes first, so the
block is encoded and sent only when the socket is OPEN; otherwise the handler
does nothing at all. -/
def onaudioprocessAlt (s : SessionState) (block : List ℚ) : SessionState :=
  if s.socket = some .opened then
    let pcm := convertFloat32ToInt16 block
    { s with encodedFrames := s.encodedFrames ++ [pcm]
             sentFrames := s.sentFrames ++ [pcm] }
  else s

/-- `WebSocket.close()`: a no-op when the socket is already CLOSING or CLOSED,
otherwise it moves the socket to CLOSING; it never throws. -/
def wsClose : ReadyState → ReadyState
  | .closing => .closing
  | .closed => .closed
  | _ => .closing

/-- `MediaRecorder.stop()` as a fallible primitive: stopping raises
`InvalidStateError` when the recorder is inactive (the source guards the call
with `state !== "inactive"`, which is what makes repeated teardown safe);
otherwise the recorder becomes inactive. -/
def recorderStopPrim : RecorderState → Except Unit RecorderState
  | .inactive => .error ()
  | _ => .ok .inactive

/-- The four guarded release statements at the head of `stopRecording`
(App.js lines 319-334 / part_000 lines 94-109): close the socket if the ref is
set, stop the stream's tracks if the ref is set, disconnect the processor and
close the audio context if they hang off a non-null socket.  None of these
operations throws, and none of them clears the refs or properties. -/
def releaseResources (s : SessionState) : SessionState :=
  let s1 :=
    match s.socket with
    | some rs => { s with socket := some (wsClose rs), closeCalls := s.closeCalls + 1 }
    | none => s
  let s2 :=
    if s1.mediaStream then { s1 with trackStopCalls := s1.trackStopCalls + 1 } else s1
  let s3 :=
    if s2.socket.isSome ∧ s2.hasProcessor then
      { s2 with disconnectCalls := s2.disconnectCalls + 1 }
    else s2
  if s3.socket.isSome ∧ s3.hasAudioContext then
    { s3 with ctxCloseCalls := s3.ctxCloseCalls + 1 }
  else s3

/-- The guarded recorder teardown of `stopRecording` (App.js lines 336-338):
`mediaRecorderRef.current.stop()` is called only when the ref is set and the
recorder is not already inactive. -/
def recorderStopStep (s : SessionState) : Except Unit SessionState :=
  match s.recorder with
  | some r =>
      if r = .inactive then .ok s
      else
        match recorderStopPrim r with
        | .ok r' =>
            .ok { s with recorder := some r'
                         recorderStopCalls := s.recorderStopCalls + 1 }
        | .error e => .error e
  | none => .ok s

/-- The tail of `stopRecording` (App.js lines 340-341): clear the recording
flag and set the status text, provided no earlier statement threw. -/
def finalizeStop (e : Except Unit SessionState) : Except Unit SessionState :=
  match e with
  | .ok s => .ok { s with recording := false, status := "Stopped streaming." }
  | .error err => .error err

/-- Embedding of `stopRecording` of the streaming variants (App.js lines
319-342, identical in part_000 lines 94-117): release resources behind null
guards, stop the recorder behind its state guard, then clear the recording
flag and set the status. -/
def stopRecording (s : SessionState) : Except Unit SessionState :=
  finalizeStop (recorderStopStep (releaseResources s))

/-- The asynchronous events that can reach a started session: the socket's
open event, a transport error, an inbound channel payload, and a delivered
audio block. -/
inductive SessionEvent
  | socketOpen
  | socketErr
  | inbound (p : InboundPayload)
  | audioBlock (b : List ℚ)
deriving DecidableEq

/-- One event step of the append-policy variant's session. -/
def stepApp (s : SessionState) (e : SessionEvent) : SessionState :=
  match e with
  | .socketOpen => onopen s
  | .socketErr => onerrorEvent s
  | .inbound p => stateAfterInbound s p
  | .audioBlock b => onaudioprocess s b

/-- One event step of the replace-policy variant's session. -/
def stepAlt (s : SessionState) (e : SessionEvent) : SessionState :=
  match e with
  | .socketOpen => onopenAlt s
  | .socketErr => onerrorEvent s
  | .inbound p => stateAfterInboundAlt s p
  | .audioBlock b => onaudioprocessAlt s b

/-- The static voice map of `playTTS` (App.js lines 384-388 / part_000 lines
157-161). -/
def voiceMap (code : String) : Option String :=
  if code = "en" then some "en-US-JennyNeural"
  else if code = "hi" then some "hi-IN-SwaraNeural"
  else if code = "zh" then some "zh-CN-XiaoxiaoNeural"
  else none

/-- The voice lookup of `playTTS` (App.js line 389 / part_000 line 162):
`voiceMap[targetLang] || 'en-US-JennyNeural'`; JavaScript `||` falls back to
the default on an absent (undefined) or empty mapped value. -/
def voiceFor (code : String) : String :=
  match voiceMap code with
  | some v => if v = "" then "en-US-JennyNeural" else v
  | none => "en-US-JennyNeural"

/-- Space-joined concatenation of a list of texts in order, stated from the
claim's words for comparison with the aggregator's accumulated transcript. -/
def spaceJoin : List String → String
  | [] => ""
  | t :: ts => ts.foldl (fun acc u => acc ++ " " ++ u) t

/-- A server push carrying only a text payload. -/
def msgOf (t : String) : TranscriptMessage :=
  { text := some t, detectedLang := none, confidence := none }

theorem append_sep_ne (a b : String) : a ++ " " ++ b ≠ "" := by
  intro h
  have hlen := congrArg String.length h
  rw [String.length_append, String.length_append] at hlen
  have hsp : (" " : String).length = 1 := rfl
  have he : ("" : String).length = 0 := rfl
  rw [hsp, he] at hlen
  omega

theorem onmessageAppend_empty_text (s : SessionState) :
    onmessageAppend s (msgOf "") = s := by
  simp [onmessageAppend, msgOf]

theorem onmessageAppend_msgOf (s : SessionState) (t : String) (ht : t ≠ "") :
    onmessageAppend s (msgOf t) =
      { s with
        transcribedText :=
          if s.transcribedText = "" then t else s.transcribedText ++ " " ++ t
        statusLang := none
        statusConfidence := none } := by
  simp [onmessageAppend, msgOf, ht]

theorem appendFold_ne (ts : List String) (s : SessionState)
    (h : s.transcribedText ≠ "") :
    ((ts.map msgOf).foldl onmessageAppend s).transcribedText =
      (ts.filter (fun t => t != "")).foldl (fun acc u => acc ++ " " ++ u)
        s.transcribedText := by
  induction ts generalizing s with
  | nil => rfl
  | cons t ts ih =>
    simp only [List.map, List.foldl, List.filter_cons]
    by_cases ht : t = ""
    · subst ht
      rw [onmessageAppend_empty_text]
      simp only [bne_self_eq_false, Bool.false_eq_true, if_false]
      exact ih s h
    · have hb : (t != "") = true := bne_iff_ne.mpr ht
      rw [hb, onmessageAppend_msgOf s t ht, if_neg h]
      simp only [if_true]
      rw [ih _ (append_sep_ne s.transcribedText t)]
      rfl

theorem appendFold_empty (ts : List String) (s : SessionState)
    (h : s.transcribedText = "") :
    ((ts.map msgOf).foldl onmessageAppend s).transcribedText =
      spaceJoin (ts.filter (fun t => t != "")) := by
  induction ts generalizing s with
  | nil => simpa [spaceJoin] using h
  | cons t ts ih =>
    simp only [List.map, List.foldl, List.filter_cons]
    by_cases ht : t = ""
    · subst ht
      rw [onmessageAppend_empty_text]
      simp only [bne_self_eq_false, Bool.false_eq_true, if_false]
      exact ih s h
    · have hb : (t != "") = true := bne_iff_ne.mpr ht
      rw [hb, onmessageAppend_msgOf s t ht, if_pos h]
      simp only [if_true]
      exact appendFold_ne ts _ ht

theorem getLast?_getD_cons (a : String) (l : List String) (d : String) :
    ((a :: l).getLast?).getD d = (l.getLast?).getD a := by
  induction l generalizing a with
  | nil => rfl
  | cons b l ih =>
    rw [List.getLast?_cons_cons]
    have hs : ((b :: l).getLast?).isSome := by
      rw [List.getLast?_isSome]
      exact List.cons_ne_nil b l
    obtain ⟨x, hx⟩ := Option.isSome_iff_exists.mp hs
    rw [hx]
    rfl

theorem replaceFold (ts : List String) (s : SessionState) :
    ((ts.map msgOf).foldl onmessageReplace s).transcribedText =
      ((ts.filter (fun t => t != "")).getLast?).getD s.transcribedText := by
  induction ts generalizing s with
  | nil => rfl
  | cons t ts ih =>
    simp only [List.map, List.foldl, List.filter_cons]
    by_cases ht : t = ""
    · subst ht
      have : onmessageReplace s (msgOf "") = s := by simp [onmessageReplace, msgOf]
      rw [this]
      simp only [bne_self_eq_false, Bool.false_eq_true, if_false]
      exact ih s
    · have hb : (t != "") = true := bne_iff_ne.mpr ht
      rw [hb]
      simp only [if_true]
      rw [getLast?_getD_cons]
      have : onmessageReplace s (msgOf t) = { s with transcribedText := t } := by
        simp [onmessageReplace, msgOf, ht]
      rw [this]
      exact ih _

/-- C2, counterexample: applying the messages with texts "a", "", "b" under
the append policy yields "a b" — the handler skips falsy (empty) texts — while
the space-joined concatenation of all three texts in arrival order is
"a  b" (with a double space).  The claim as stated therefore fails. -/
theorem C2_space_join_counterexample :
    (([msgOf "a", msgOf "", msgOf "b"].foldl onmessageAppend
        initSession)).transcribedText = "a b" ∧
    spaceJoin ["a", "", "b"] = "a  b" ∧
    ("a b" : String) ≠ "a  b" := by
  refine ⟨rfl, rfl, by decide⟩

/-- C2 (amended): under the append policy the accumulated transcript equals
the space-joined concatenation of the messages' nonempty texts in arrival
order (messages whose text is empty are skipped, because the handler tests
`data.text` for truthiness); under the replace policy it equals the last
nonempty text, and keeps its previous value when no message carries a
nonempty text. -/
theorem C2_aggregator_policies (texts : List String) (s : SessionState)
    (h : s.transcribedText = "") :
    ((texts.map msgOf).foldl onmessageAppend s).transcribedText =
      spaceJoin (texts.filter (fun t => t != "")) ∧
    ∀ u : SessionState,
      ((texts.map msgOf).foldl onmessageReplace u).transcribedText =
        ((texts.filter (fun t => t != "")).getLast?).getD u.transcribedText :=
  ⟨appendFold_empty texts s h, fun u => replaceFold texts u⟩

/-- Witness for `C2_aggregator_policies`: the end-to-end scenario of spec §8,
messages "hello" then "world" from a fresh session. -/
theorem C2_aggregator_policies_witness :
    ((["hello", "world"].map msgOf).foldl onmessageAppend
        initSession).transcribedText =
      spaceJoin (["hello", "world"].filter (fun t => t != "")) ∧
    ((["hello", "world"].map msgOf).foldl onmessageReplace
        initSession).transcribedText =
      ((["hello", "world"].filter (fun t => t != "")).getLast?).getD
        initSession.transcribedText :=
  ⟨(C2_aggregator_policies ["hello", "world"] initSession rfl).1,
   (C2_aggregator_policies ["hello", "world"] initSession rfl).2 initSession⟩

/-- A message carrying a nonempty text together with detection metadata. -/
def langMsg : TranscriptMessage :=
  { text := some "hi", detectedLang := some "fr", confidence := some 1 }

/-- A message carrying detection metadata but no text field. -/
def staleLangMsg : TranscriptMessage :=
  { text := none, detectedLang := some "fr", confidence := some 1 }

/-- C8, counterexample: a message that carries `detectedLanguage = "fr"` but
no text does not update the last detected language in the append variant (the
metadata write sits inside the `if (data.text)` guard), and the replace
variant never updates it at all, even for a message with nonempty text.  So
the metadata is not applied last-write-wins regardless of text content and
merge policy. -/
theorem C8_metadata_counterexample :
    (onmessageAppend { initSession with statusLang := some "en" }
        staleLangMsg).statusLang = some "en" ∧
    staleLangMsg.detectedLang = some "fr" ∧
    (some "en" : Option String) ≠ some "fr" ∧
    (onmessageReplace { initSession with statusLang := some "en" }
        langMsg).statusLang = some "en" ∧
    langMsg.detectedLang = some "fr" :=
  ⟨rfl, rfl, by decide, rfl, rfl⟩

/-- C8 (amended): in the append variant, detected language and confidence are
applied last-write-wins exactly for messages whose text is present and
nonempty; a message with absent or empty text changes nothing.  The replace
variant never updates detected language or confidence. -/
theorem C8_metadata_conditional (s : SessionState) (m : TranscriptMessage)
    (t : String) (hm : m.text = some t) (ht : t ≠ "") :
    (onmessageAppend s m).statusLang = m.detectedLang ∧
    (onmessageAppend s m).statusConfidence = m.confidence ∧
    (∀ (u : SessionState) (m' : TranscriptMessage),
      m'.text = none ∨ m'.text = some "" → onmessageAppend u m' = u) ∧
    (∀ (u : SessionState) (m' : TranscriptMessage),
      (onmessageReplace u m').statusLang = u.statusLang ∧
      (onmessageReplace u m').statusConfidence = u.statusConfidence) := by
  refine ⟨by simp [onmessageAppend, hm, ht], by simp [onmessageAppend, hm, ht],
    ?_, ?_⟩
  · rintro u m' (h | h) <;> simp [onmessageAppend, h]
  · intro u m'
    cases hm' : m'.text with
    | none => simp [onmessageReplace, hm']
    | some t' =>
      by_cases h : t' = "" <;> simp [onmessageReplace, hm', h]

/-- Witness for `C8_metadata_conditional`: applying `langMsg` (nonempty text,
language "fr") to a fresh session records its metadata. -/
theorem C8_metadata_conditional_witness :
    (onmessageAppend initSession langMsg).statusLang = langMsg.detectedLang ∧
    (onmessageAppend initSession langMsg).statusConfidence = langMsg.confidence :=
  ⟨(C8_metadata_conditional initSession langMsg "hi" rfl (by decide)).1,
   (C8_metadata_conditional initSession langMsg "hi" rfl (by decide)).2.1⟩

/-- C4, counterexample: on an unparseable payload the `onmessage` handler does
not drop it with a reported parse error — `JSON.parse` has no try/catch around
it, so the handler raises (an uncaught exception), and no status is written:
the resulting session state is completely unchanged, so in particular no parse
error was reported. -/
theorem C4_malformed_counterexample :
    onmessageRawAppend initSession InboundPayload.malformed =
      Except.error () ∧
    stateAfterInbound initSession InboundPayload.malformed = initSession ∧
    (stateAfterInbound initSession InboundPayload.malformed).status =
      initSession.status :=
  ⟨rfl, rfl, rfl⟩

theorem inbound_preserves (s : SessionState) (p : InboundPayload) :
    (stateAfterInbound s p).socket = s.socket ∧
    (stateAfterInbound s p).recording = s.recording ∧
    (stateAfterInbound s p).encodedFrames = s.encodedFrames ∧
    (stateAfterInboundAlt s p).socket = s.socket ∧
    (stateAfterInboundAlt s p).recording = s.recording ∧
    (stateAfterInboundAlt s p).encodedFrames = s.encodedFrames := by
  cases p with
  | malformed => exact ⟨rfl, rfl, rfl, rfl, rfl, rfl⟩
  | wellFormed m =>
    cases hm : m.text with
    | none =>
      simp [stateAfterInbound, stateAfterInboundAlt, onmessageRawAppend,
        onmessageRawReplace, onmessageAppend, onmessageReplace, hm]
    | some t =>
      by_cases h : t = "" <;>
        simp [stateAfterInbound, stateAfterInboundAlt, onmessageRawAppend,
          onmessageRawReplace, onmessageAppend, onmessageReplace, hm, h]

/-- C4 (amended): a payload that fails JSON parsing makes the `onmessage`
handler of either variant raise an uncaught parse exception; no parse-error
status is reported.  The escaped exception leaves the whole session state —
in particular the running transcript — unchanged, and no inbound payload of
any kind (malformed or parsed) closes the channel or stops the session. -/
theorem C4_malformed_uncaught (s : SessionState) :
    onmessageRawAppend s InboundPayload.malformed = Except.error () ∧
    onmessageRawReplace s InboundPayload.malformed = Except.error () ∧
    stateAfterInbound s InboundPayload.malformed = s ∧
    stateAfterInboundAlt s InboundPayload.malformed = s ∧
    (∀ p : InboundPayload,
      (stateAfterInbound s p).socket = s.socket ∧
      (stateAfterInbound s p).recording = s.recording ∧
      (stateAfterInboundAlt s p).socket = s.socket ∧
      (stateAfterInboundAlt s p).recording = s.recording) := by
  refine ⟨rfl, rfl, rfl, rfl, fun p => ?_⟩
  obtain ⟨h1, h2, _, h4, h5, _⟩ := inbound_preserves s p
  exact ⟨h1, h2, h4, h5⟩

/-- C9: the voice lookup resolves a mapped target-language code to its mapped
voice, resolves any unmapped code — "fr" among them — to the default voice
'en-US-JennyNeural', and never fails (it is a total function). -/
theorem C9_voice_lookup (code : String) :
    (∀ v, voiceMap code = some v → voiceFor code = v) ∧
    (voiceMap code = none → voiceFor code = "en-US-JennyNeural") ∧
    voiceFor "fr" = "en-US-JennyNeural" := by
  refine ⟨?_, ?_, rfl⟩
  · intro v hv
    have hne : v ≠ "" := by
      unfold voiceMap at hv
      split_ifs at hv <;>
        (injection hv with h
         subst h
         decide)
    unfold voiceFor
    rw [hv]
    simp [hne]
  · intro h
    unfold voiceFor
    rw [h]

/-- Witness for `C9_voice_lookup`: "hi" is mapped to its Hindi voice, and the
unmapped "fr" falls back to the default voice. -/
theorem C9_voice_lookup_witness :
    voiceFor "hi" = "hi-IN-SwaraNeural" ∧
    voiceFor "fr" = "en-US-JennyNeural" :=
  ⟨(C9_voice_lookup "hi").1 "hi-IN-SwaraNeural" rfl, (C9_voice_lookup "fr").2.2⟩

/-- C3: an audio block's encoded frame is sent if and only if the socket is
OPEN when the block is processed (in both variants); when the channel is not
open the frame is dropped silently — the handler is a total function (no
error), transmits nothing, and keeps the frame in no queue: after the channel
later opens, only newly processed blocks are transmitted, never the dropped
frame. -/
theorem C3_send_iff_open (s : SessionState) (block : List ℚ) :
    ((onaudioprocess s block).sentFrames =
      if s.socket = some ReadyState.opened then
        s.sentFrames ++ [convertFloat32ToInt16 block]
      else s.sentFrames) ∧
    (s.socket ≠ some ReadyState.opened →
      (onaudioprocess s block).sentFrames = s.sentFrames ∧
      (onaudioprocessAlt s block).sentFrames = s.sentFrames ∧
      ∀ block2 : List ℚ,
        (onaudioprocess { onaudioprocess s block with
            socket := some ReadyState.opened } block2).sentFrames =
          s.sentFrames ++ [convertFloat32ToInt16 block2]) ∧
    ((onaudioprocessAlt s block).sentFrames =
      if s.socket = some ReadyState.opened then
        s.sentFrames ++ [convertFloat32ToInt16 block]
      else s.sentFrames) := by
  by_cases h : s.socket = some ReadyState.opened
  · exact ⟨by simp [onaudioprocess, h], fun hc => absurd h hc,
      by simp [onaudioprocessAlt, h]⟩
  · refine ⟨by simp [onaudioprocess, h], fun _ => ⟨by simp [onaudioprocess, h],
      by simp [onaudioprocessAlt, h], fun block2 => ?_⟩,
      by simp [onaudioprocessAlt, h]⟩
    simp [onaudioprocess, h]

/-- Witness for `C3_send_iff_open`: right after `startRecording`, while the
socket is still CONNECTING, a processed block is not transmitted; once the
socket is OPEN a subsequently processed block is transmitted. -/
theorem C3_send_iff_open_witness :
    (onaudioprocess initSession []).sentFrames = initSession.sentFrames ∧
    (onaudioprocess { onaudioprocess initSession [] with
        socket := some ReadyState.opened } []).sentFrames =
      initSession.sentFrames ++ [convertFloat32ToInt16 []] :=
  ⟨((C3_send_iff_open initSession []).2.1 (by decide)).1,
   ((C3_send_iff_open initSession []).2.1 (by decide)).2.2 []⟩

theorem recorderStopStep_ok (s : SessionState) :
    ∃ t, recorderStopStep s = Except.ok t := by
  rcases hr : s.recorder with _ | r
  · exact ⟨s, by simp [recorderStopStep, hr]⟩
  · cases r
    · exact ⟨s, by simp [recorderStopStep, hr]⟩
    · exact ⟨{ s with recorder := some RecorderState.inactive
                      recorderStopCalls := s.recorderStopCalls + 1 },
        by simp [recorderStopStep, hr, recorderStopPrim]⟩
    · exact ⟨{ s with recorder := some RecorderState.inactive
                      recorderStopCalls := s.recorderStopCalls + 1 },
        by simp [recorderStopStep, hr, recorderStopPrim]⟩

theorem stopRecording_ok (s : SessionState) :
    ∃ t, stopRecording s = Except.ok t := by
  obtain ⟨u, hu⟩ := recorderStopStep_ok (releaseResources s)
  refine ⟨{ u with recording := false, status := "Stopped streaming." }, ?_⟩
  unfold stopRecording
  rw [hu]
  rfl

/-- C5, counterexample: `stopRecording` on an idle (never-started) session is
not a no-op — it unconditionally sets the status text to "Stopped streaming.",
changing the state.  (It does not throw and touches no resource, see the
amended theorem.) -/
theorem C5_stop_idle_counterexample :
    stopRecording idleSession =
      Except.ok { idleSession with status := "Stopped streaming." } ∧
    ({ idleSession with status := "Stopped streaming." } : SessionState) ≠
      idleSession :=
  ⟨rfl, by decide⟩

theorem wsClose_shape (rs : ReadyState) :
    wsClose rs = ReadyState.closing ∨ wsClose rs = ReadyState.closed := by
  cases rs
  · exact Or.inl rfl
  · exact Or.inl rfl
  · exact Or.inl rfl
  · exact Or.inr rfl

theorem releaseResources_fields (s : SessionState) :
    (releaseResources s).recorder = s.recorder ∧
    (releaseResources s).recorderStopCalls = s.recorderStopCalls ∧
    (releaseResources s).socket = Option.map wsClose s.socket := by
  refine ⟨?_, ?_, ?_⟩ <;>
    (rcases hs : s.socket with _ | rs <;>
      simp [releaseResources, hs] <;> split_ifs <;> simp_all)

theorem recorderStopStep_result (r v : SessionState)
    (h : recorderStopStep r = Except.ok v) :
    (v.recorder = none ∨ v.recorder = some RecorderState.inactive) ∧
    v.socket = r.socket := by
  cases hr : r.recorder with
  | none =>
    simp [recorderStopStep, hr] at h
    subst h
    exact ⟨Or.inl hr, rfl⟩
  | some rc =>
    cases rc with
    | inactive =>
      simp [recorderStopStep, hr] at h
      subst h
      exact ⟨Or.inr hr, rfl⟩
    | recording =>
      simp [recorderStopStep, hr, recorderStopPrim] at h
      subst h
      exact ⟨Or.inr rfl, rfl⟩
    | paused =>
      simp [recorderStopStep, hr, recorderStopPrim] at h
      subst h
      exact ⟨Or.inr rfl, rfl⟩

theorem stopRecording_shape (t u : SessionState)
    (h : stopRecording t = Except.ok u) :
    (u.recorder = none ∨ u.recorder = some RecorderState.inactive) ∧
    (u.socket = none ∨ u.socket = some ReadyState.closing ∨
      u.socket = some ReadyState.closed) ∧
    u.recording = false ∧ u.status = "Stopped streaming." := by
  obtain ⟨v, hv⟩ := recorderStopStep_ok (releaseResources t)
  unfold stopRecording at h
  rw [hv] at h
  simp only [finalizeStop, Except.ok.injEq] at h
  subst h
  obtain ⟨hvrec, hvsock⟩ := recorderStopStep_result (releaseResources t) v hv
  obtain ⟨-, -, hmap⟩ := releaseResources_fields t
  refine ⟨hvrec, ?_, rfl, rfl⟩
  show v.socket = none ∨ v.socket = some ReadyState.closing ∨
    v.socket = some ReadyState.closed
  rw [hvsock, hmap]
  cases t.socket with
  | none => exact Or.inl rfl
  | some rs =>
    rcases wsClose_shape rs with h1 | h1
    · exact Or.inr (Or.inl (by simp [h1]))
    · exact Or.inr (Or.inr (by simp [h1]))

theorem stopRecording_again (u : SessionState)
    (hrec : u.recorder = none ∨ u.recorder = some RecorderState.inactive)
    (hsock : u.socket = none ∨ u.socket = some ReadyState.closing ∨
      u.socket = some ReadyState.closed) :
    stopRecording u =
      Except.ok { releaseResources u with recording := false
                                          status := "Stopped streaming." } ∧
    (releaseResources u).recorderStopCalls = u.recorderStopCalls ∧
    (releaseResources u).socket = u.socket := by
  obtain ⟨hr, hcalls, hmap⟩ := releaseResources_fields u
  have hstep : recorderStopStep (releaseResources u) =
      Except.ok (releaseResources u) := by
    rcases hrec with h | h
    · unfold recorderStopStep
      rw [hr, h]
    · unfold recorderStopStep
      rw [hr, h]
      simp
  refine ⟨?_, hcalls, ?_⟩
  · unfold stopRecording
    rw [hstep]
    rfl
  · rw [hmap]
    rcases hsock with h | h | h <;> rw [h] <;> rfl

/-- C5 (amended): `stopRecording` on a never-started session (all refs null)
performs no resource operation — no socket close, no track stop, no processor
disconnect, no context close, no recorder stop — does not throw, and leaves
everything unchanged except for clearing the (already false) recording flag
and setting the status text.  Calling stop twice in a row, or when the
channel never opened, is also safe: `stopRecording` never throws from any
state, and after a first stop a second stop again returns normally; because
the refs are never cleared the second call does re-invoke the guarded release
calls (harmless no-ops at that point), but it never stops the recorder a
second time (the `state !== "inactive"` guard sees it inactive), leaves the
socket state unchanged (closing a CLOSING/CLOSED socket does nothing), and
leaves the session stopped with the same status text. -/
theorem C5_stop_safe (s : SessionState) (hsock : s.socket = none)
    (hstream : s.mediaStream = false) (hrec : s.recorder = none) :
    stopRecording s =
      Except.ok { s with recording := false, status := "Stopped streaming." } ∧
    (∀ t : SessionState, ∃ u, stopRecording t = Except.ok u) ∧
    (∀ t u : SessionState, stopRecording t = Except.ok u →
      ∃ u', stopRecording u = Except.ok u' ∧
        u'.recorderStopCalls = u.recorderStopCalls ∧
        u'.socket = u.socket ∧
        u'.recording = false ∧
        u'.status = u.status) := by
  refine ⟨?_, stopRecording_ok, ?_⟩
  · have h1 : releaseResources s = s := by
      unfold releaseResources
      simp [hsock, hstream]
    have h2 : recorderStopStep s = Except.ok s := by
      unfold recorderStopStep
      rw [hrec]
    unfold stopRecording
    rw [h1, h2]
    rfl
  · intro t u h
    obtain ⟨hurec, husock, -, hustatus⟩ := stopRecording_shape t u h
    obtain ⟨hagain, hcalls, hsockeq⟩ := stopRecording_again u hurec husock
    exact ⟨_, hagain, hcalls, hsockeq, rfl, hustatus.symm⟩

/-- Witness for `C5_stop_safe`: stopping the never-started idle session only
sets the status text, and stopping that already-stopped session again returns
normally without stopping the recorder again or changing the socket. -/
theorem C5_stop_safe_witness :
    stopRecording idleSession =
      Except.ok { idleSession with recording := false
                                   status := "Stopped streaming." } ∧
    ∃ u', stopRecording { idleSession with recording := false
                                           status := "Stopped streaming." } =
        Except.ok u' ∧
      u'.recorderStopCalls =
        ({ idleSession with recording := false
                            status := "Stopped streaming." } :
          SessionState).recorderStopCalls ∧
      u'.socket =
        ({ idleSession with recording := false
                            status := "Stopped streaming." } :
          SessionState).socket ∧
      u'.recording = false ∧
      u'.status =
        ({ idleSession with recording := false
                            status := "Stopped streaming." } :
          SessionState).status :=
  ⟨(C5_stop_safe idleSession rfl rfl rfl).1,
   (C5_stop_safe idleSession rfl rfl rfl).2.2 idleSession
     { idleSession with recording := false, status := "Stopped streaming." }
     (C5_stop_safe idleSession rfl rfl rfl).1⟩

theorem stepApp_no_open_recording (es : List SessionEvent) (s : SessionState)
    (h : SessionEvent.socketOpen ∉ es) :
    (es.foldl stepApp s).recording = s.recording := by
  induction es generalizing s with
  | nil => rfl
  | cons e es ih =>
    have he : e ≠ SessionEvent.socketOpen := fun heq =>
      h (heq ▸ List.mem_cons_self e es)
    have hes : SessionEvent.socketOpen ∉ es := fun hm =>
      h (List.mem_cons_of_mem e hm)
    rw [List.foldl_cons, ih _ hes]
    cases e with
    | socketOpen => exact absurd rfl he
    | socketErr => rfl
    | inbound p => exact (inbound_preserves s p).2.1
    | audioBlock b =>
      show (onaudioprocess s b).recording = s.recording
      simp only [onaudioprocess]
      split <;> rfl

theorem stepAlt_no_open_inv (es : List SessionEvent) (s : SessionState)
    (h : SessionEvent.socketOpen ∉ es)
    (hs : s.socket ≠ some ReadyState.opened) :
    (es.foldl stepAlt s).recording = s.recording ∧
    (es.foldl stepAlt s).encodedFrames = s.encodedFrames ∧
    (es.foldl stepAlt s).socket ≠ some ReadyState.opened := by
  induction es generalizing s with
  | nil => exact ⟨rfl, rfl, hs⟩
  | cons e es ih =>
    have he : e ≠ SessionEvent.socketOpen := fun heq =>
      h (heq ▸ List.mem_cons_self e es)
    have hes : SessionEvent.socketOpen ∉ es := fun hm =>
      h (List.mem_cons_of_mem e hm)
    have hstep : (stepAlt s e).recording = s.recording ∧
        (stepAlt s e).encodedFrames = s.encodedFrames ∧
        (stepAlt s e).socket ≠ some ReadyState.opened := by
      cases e with
      | socketOpen => exact absurd rfl he
      | socketErr => exact ⟨rfl, rfl, by simp [stepAlt, onerrorEvent]⟩
      | inbound p =>
        obtain ⟨_, _, _, h4, h5, h6⟩ := inbound_preserves s p
        exact ⟨h5, h6, by rw [stepAlt, h4]; exact hs⟩
      | audioBlock b =>
        have : stepAlt s (SessionEvent.audioBlock b) = s := by
          simp [stepAlt, onaudioprocessAlt, hs]
        rw [this]
        exact ⟨rfl, rfl, hs⟩
    obtain ⟨h1, h2, h3⟩ := ih (stepAlt s e) hes hstep.2.2
    rw [List.foldl_cons]
    exact ⟨h1.trans hstep.1, h2.trans hstep.2.1, h3⟩

/-- C6, counterexample: in the append-policy variant's `onaudioprocess`, the
block is encoded before the readyState guard, so an encoded frame exists even
though the socket is still CONNECTING and the session is not yet Active —
the frame is merely dropped instead of sent. -/
theorem C6_encoded_before_open_counterexample :
    initSession.socket = some ReadyState.connecting ∧
    initSession.recording = false ∧
    (stepApp initSession (SessionEvent.audioBlock [0])).encodedFrames =
      [convertFloat32ToInt16 [0]] ∧
    (stepApp initSession (SessionEvent.audioBlock [0])).sentFrames = [] ∧
    (stepApp initSession (SessionEvent.audioBlock [0])).recording = false :=
  ⟨rfl, rfl, rfl, rfl, rfl⟩

/-- C6 (amended): the recording flag becomes true only inside the channel's
open handler: under either variant, a session that has seen no socket-open
event is never Active.  In the replace-policy variant no frame is encoded
before the channel opens; in the append-policy variant, however, audio blocks
are encoded (and then dropped) even while the channel is not yet open. -/
theorem C6_active_only_after_open (es : List SessionEvent)
    (h : SessionEvent.socketOpen ∉ es) :
    (es.foldl stepApp initSession).recording = false ∧
    (es.foldl stepAlt initSession).recording = false ∧
    (es.foldl stepAlt initSession).encodedFrames = [] := by
  refine ⟨stepApp_no_open_recording es initSession h, ?_, ?_⟩
  · exact (stepAlt_no_open_inv es initSession h (by decide)).1
  · exact (stepAlt_no_open_inv es initSession h (by decide)).2.1

/-- Witness for `C6_active_only_after_open`: an audio block and a transport
error arrive but the socket never opens; the session is not Active and the
replace-policy variant has encoded nothing. -/
theorem C6_active_only_after_open_witness :
    (([SessionEvent.audioBlock [], SessionEvent.socketErr]).foldl stepApp
        initSession).recording = false ∧
    (([SessionEvent.audioBlock [], SessionEvent.socketErr]).foldl stepAlt
        initSession).recording = false ∧
    (([SessionEvent.audioBlock [], SessionEvent.socketErr]).foldl stepAlt
        initSession).encodedFrames = [] :=
  C6_active_only_after_open [SessionEvent.audioBlock [], SessionEvent.socketErr]
    (by decide)

/-- Playback states of the waveform view. -/
inductive PlaybackState
  | stopped
  | playing
  | paused
deriving DecidableEq

/-- State of the waveform playback controller: the generation number of the
currently loaded recorded-audio buffer (`none` before any load), the playback
state, and the log of buffer generations for which the `onFinish` callback
has fired. -/
structure WaveformState where
  currentBuf : Option ℕ
  playState : PlaybackState
  finishFired : List ℕ
deriving DecidableEq

/-- Operations on the waveform playback controller: loading a new recorded
buffer, the play/pause toggle, and the library's end-of-playthrough event. -/
inductive WEvent
  | load (g : ℕ)
  | toggle
  | finish
deriving DecidableEq

/-- A waveform view before any recording has been loaded. -/
def w0 : WaveformState :=
  { currentBuf := none, playState := .stopped, finishFired := [] }

/-- Modelled from the spec: the `Waveform` component (App.js lines 506-561)
delegates decoding and playback to the external wavesurfer.js library, whose
code is not part of this repository; its load/play/pause/finish semantics
follow spec §4.5.  `load g` is the `audioBlob` effect (App.js lines 539-550):
the new buffer replaces the current one and playback resets to stopped.
`toggle` is the play/pause button (App.js lines 457-463 and 552-559), a no-op
while no buffer is loaded.  `finish` is the library's end-of-playthrough
event, which can only fire for the currently loaded buffer while it is
playing; the component's handler (App.js lines 528-530) then invokes the
current `onFinish`, with which the `App` leaves the playing state (App.js
line 456) — the model logs the fired buffer's generation and stops. -/
def wstep (s : WaveformState) (e : WEvent) : WaveformState :=
  match e with
  | .load g => { s with currentBuf := some g, playState := .stopped }
  | .toggle =>
      match s.currentBuf with
      | none => s
      | some _ =>
          { s with playState :=
              match s.playState with
              | .playing => .paused
              | _ => .playing }
  | .finish =>
      match s.currentBuf, s.playState with
      | some g, .playing =>
          { s with playState := .stopped, finishFired := s.finishFired ++ [g] }
      | _, _ => s

theorem wstep_no_stale (es : List WEvent) (s : WaveformState) (g1 : ℕ)
    (h : WEvent.load g1 ∉ es) (hs : s.currentBuf ≠ some g1) :
    (es.foldl wstep s).finishFired.count g1 = s.finishFired.count g1 ∧
    (es.foldl wstep s).currentBuf ≠ some g1 := by
  induction es generalizing s with
  | nil => exact ⟨rfl, hs⟩
  | cons e es ih =>
    have he : e ≠ WEvent.load g1 := fun heq => h (heq ▸ List.mem_cons_self e es)
    have hes : WEvent.load g1 ∉ es := fun hm => h (List.mem_cons_of_mem e hm)
    have hstep : (wstep s e).finishFired.count g1 = s.finishFired.count g1 ∧
        (wstep s e).currentBuf ≠ some g1 := by
      cases e with
      | load g =>
        have hg : g ≠ g1 := fun hgg => he (by rw [hgg])
        exact ⟨rfl, by simp [wstep, hg]⟩
      | toggle =>
        cases hc : s.currentBuf with
        | none => simp [wstep, hc]
        | some g' =>
          constructor
          · simp [wstep, hc]
          · simp only [wstep, hc]
            exact fun heq => hs (hc.trans (by rw [heq]))
      | finish =>
        cases hc : s.currentBuf with
        | none => simp [wstep, hc]
        | some g' =>
          have hg' : ¬ (g1 = g') := fun heq => hs (by rw [hc, heq])
          cases hp : s.playState with
          | playing =>
            constructor
            · simp [wstep, hc, hp, List.count_append, List.count_cons,
                List.count_nil, hg']
            · simp only [wstep, hc, hp]
              exact fun heq => hs (hc.trans (by rw [heq]))
          | stopped =>
            constructor
            · simp [wstep, hc, hp]
            · simp only [wstep, hc, hp]
              exact fun heq => hs (hc.trans (by rw [heq]))
          | paused =>
            constructor
            · simp [wstep, hc, hp]
            · simp only [wstep, hc, hp]
              exact fun heq => hs (hc.trans (by rw [heq]))
    obtain ⟨h1, h2⟩ := ih (wstep s e) hes hstep.2
    rw [List.foldl_cons]
    exact ⟨h1.trans hstep.1, h2⟩

theorem loads_end_stopped (gs : List ℕ) (s : WaveformState) (h : gs ≠ []) :
    ((gs.map WEvent.load).foldl wstep s).playState = PlaybackState.stopped := by
  induction gs generalizing s with
  | nil => exact absurd rfl h
  | cons g gs ih =>
    cases gs with
    | nil => rfl
    | cons g' gs' =>
      exact ih (wstep s (WEvent.load g)) (List.cons_ne_nil g' gs')

/-- C7: once a second buffer has been loaded right after a first one, the
first buffer's `onFinish` can never fire again, whatever events follow (as
long as the first buffer is not reloaded): the count of finish firings for
the first buffer stays exactly what it was before the two loads.  Moreover
the playback state after any nonempty sequence of loads is Stopped. -/
theorem C7_no_stale_finish (s : WaveformState) (g1 g2 : ℕ)
    (rest : List WEvent) (hne : g2 ≠ g1) (hrest : WEvent.load g1 ∉ rest) :
    (rest.foldl wstep
        (wstep (wstep s (WEvent.load g1)) (WEvent.load g2))).finishFired.count
        g1 = s.finishFired.count g1 ∧
    ∀ gs : List ℕ, gs ≠ [] →
      ((gs.map WEvent.load).foldl wstep s).playState =
        PlaybackState.stopped := by
  constructor
  · have h0 : (wstep (wstep s (WEvent.load g1)) (WEvent.load g2)).currentBuf ≠
        some g1 := by
      simp [wstep, hne]
    have h1 : (wstep (wstep s (WEvent.load g1)) (WEvent.load g2)).finishFired =
        s.finishFired := rfl
    obtain ⟨hc, _⟩ := wstep_no_stale rest _ g1 hrest h0
    rw [hc, h1]
  · exact fun gs hgs => loads_end_stopped gs s hgs

/-- Witness for `C7_no_stale_finish`: buffers 0 then 1 are loaded in
immediate succession, then the new buffer is played to the end; buffer 0's
`onFinish` never fires, and a later load leaves the view Stopped. -/
theorem C7_no_stale_finish_witness :
    (([WEvent.toggle, WEvent.finish]).foldl wstep
        (wstep (wstep w0 (WEvent.load 0)) (WEvent.load 1))).finishFired.count
        0 = w0.finishFired.count 0 ∧
    (([5].map WEvent.load).foldl wstep w0).playState = PlaybackState.stopped :=
  ⟨(C7_no_stale_finish w0 0 1 [WEvent.toggle, WEvent.finish] (by decide)
      (by decide)).1,
   (C7_no_stale_finish w0 0 1 [WEvent.toggle, WEvent.finish] (by decide)
      (by decide)).2 [5] (by decide)⟩

end RTT
